import Mathlib

/-!
Verification of the UBI-claim verification subsystem of `src/blockchain.py`
(functions `_topic_for_address`, `_get_latest_block_number`,
`_calculate_block_range`, `_cleanup_expired_cache`, `has_recent_ubi_claim`).

Modelling conventions (shallow embedding):
* The JSON-RPC endpoint (`requests.post` against `CELO_RPC`) is an explicit
  `Oracle` value: `blockNumber` models one `eth_blockNumber` round trip
  (`none` = network failure/exception), `getLogs` models one `eth_getLogs`
  round trip (`none` = RPC error field or `requests` exception, `some logs`
  = a decoded log list).  `formatTs` abstracts `_format_timestamp` (a pure
  function of the chain state and wall clock, whose output string is carried
  opaquely).  `fatal` models an unexpected exception escaping to the outer
  `except` clause of `has_recent_ubi_claim` (`none` in normal operation).
* `time.time()` is a `Nat` clock in seconds; the cache is an association
  list in Python-dict insertion order.
* Python `int(s, 16)` is `parseHexInt` (optional sign, optional `0x`/`0X`
  prefix, at least one hex digit; the underscore/whitespace liberality of
  CPython is not exercised by any input considered here).
* Python's `f"{wei / 10**18:.6f}"` float formatting is modelled by exact
  rational rounding (round half to even) to six decimal places, which
  coincides with the float pipeline on every amount considered here.
* `hex(n)` applied to block numbers before they are placed into a query is
  a bijection on integers and is elided: `LogQuery` carries the numbers.
* `_validate_ubi_contract` only prints diagnostics, swallows all of its own
  exceptions and influences no output of `has_recent_ubi_claim`; it is
  modelled as a no-op (its extra network traffic is not counted in `calls`).
-/

/-- One decoded `eth_getLogs` log entry, with `blockNumber` already decoded
from its hex representation (the code decodes it with `int(·, 16)`). -/
structure LogEntry where
  blockNumber : Nat
  transactionHash : String
  data : String
  topics : List String
deriving Repr, DecidableEq, Inhabited

/-- One activity dictionary as appended to `all_activities` in
`has_recent_ubi_claim`. -/
structure ActivityRecord where
  contract : String
  contract_address : String
  block : Nat
  tx_hash : String
  timestamp : String
  method : String
  status : String
  amount : String
  activity_type : String
deriving Repr, DecidableEq, Inhabited

/-- The `summary` dictionary of a successful verification result. -/
structure Summary where
  total_activities : Nat
  claims : Nat
  events : Nat
  contracts_involved : Nat
  latest_activity : ActivityRecord
deriving Repr, DecidableEq, Inhabited

/-- The dictionary returned by `has_recent_ubi_claim`.  The `activities` and
`summary` keys are absent (`none`) on the error paths. -/
structure VerificationResult where
  status : String
  message : String
  activities : Option (List ActivityRecord)
  summary : Option Summary
deriving Repr, DecidableEq, Inhabited

/-- One `eth_getLogs` request body (block numbers kept as integers; the
code passes `hex(·)` strings, a bijective encoding).  A `none` topic is the
JSON `null` wildcard. -/
structure LogQuery where
  fromBlock : Int
  toBlock : Int
  address : String
  topics : List (Option String)
deriving Repr, DecidableEq, Inhabited

/-- The blockchain node plus the failure environment, as seen by one call of
`has_recent_ubi_claim`. -/
structure Oracle where
  blockNumber : Option Nat
  getLogs : LogQuery → Option (List LogEntry)
  formatTs : Nat → String
  fatal : Option String

/-- ASCII lowering of one character, as Python `str.lower` acts on the
ASCII-only strings this subsystem handles. -/
def pyToLower (c : Char) : Char :=
  if 65 ≤ c.toNat ∧ c.toNat ≤ 90 then Char.ofNat (c.toNat + 32) else c

/-- Python `s.lower()` on ASCII strings. -/
def pyLower (s : String) : String := ⟨s.data.map pyToLower⟩

/-- Left-to-right removal of every occurrence of the two-character pattern
`0x`, as Python `s.replace("0x", "")` performs. -/
def remove0x : List Char → List Char
  | [] => []
  | [c] => [c]
  | c1 :: c2 :: rest =>
    if c1 = '0' ∧ c2 = 'x' then remove0x rest
    else c1 :: remove0x (c2 :: rest)

/-- Python `s.replace("0x", "")`. -/
def pyReplace0x (s : String) : String := ⟨remove0x s.data⟩

/-- Embedding of `_topic_for_address` (src/blockchain.py:245-247):
`"0x" + ("0" * 24) + wallet.lower().replace("0x", "")`. -/
def _topic_for_address (wallet : String) : String :=
  "0x" ++ "000000000000000000000000" ++ pyReplace0x (pyLower wallet)

/-- Value of one hex digit, or `none`. -/
def hexDigitVal (c : Char) : Option Nat :=
  if 48 ≤ c.toNat ∧ c.toNat ≤ 57 then some (c.toNat - 48)
  else if 97 ≤ c.toNat ∧ c.toNat ≤ 102 then some (c.toNat - 87)
  else if 65 ≤ c.toNat ∧ c.toNat ≤ 70 then some (c.toNat - 55)
  else none

/-- Accumulating hex-digit parser. -/
def parseHexDigitsAux : Nat → List Char → Option Nat
  | acc, [] => some acc
  | acc, c :: rest =>
    match hexDigitVal c with
    | some v => parseHexDigitsAux (16 * acc + v) rest
    | none => none

/-- Parse a non-empty list of hex digits. -/
def parseHexDigits (l : List Char) : Option Nat :=
  match l with
  | [] => none
  | _ => parseHexDigitsAux 0 l

/-- Parse hex digits after stripping an optional `0x`/`0X` prefix. -/
def parseHexBody (l : List Char) : Option Nat :=
  match l with
  | '0' :: 'x' :: rest => parseHexDigits rest
  | '0' :: 'X' :: rest => parseHexDigits rest
  | l => parseHexDigits l

/-- Embedding of Python `int(s, 16)`: optional sign, optional `0x`/`0X`
prefix, at least one hex digit; `none` models the raised `ValueError`. -/
def parseHexInt (s : String) : Option Int :=
  match s.data with
  | '-' :: rest => (parseHexBody rest).map (fun n => -(n : Int))
  | '+' :: rest => (parseHexBody rest).map (fun n => (n : Int))
  | l => (parseHexBody l).map (fun n => (n : Int))

/-- Decimal digit character. -/
def digitChar (d : Nat) : Char := Char.ofNat (48 + d % 10)

/-- Six-digit zero-padded decimal rendering of `n < 10^6`. -/
def pad6 (n : Nat) : String :=
  ⟨[digitChar (n / 100000), digitChar (n / 10000), digitChar (n / 1000),
    digitChar (n / 100), digitChar (n / 10), digitChar n]⟩

/-- Division rounded half to even, the rounding of `f"{·:.6f}"`. -/
def roundHalfEven (a b : Nat) : Nat :=
  let q := a / b
  let r := a % b
  if b < 2 * r then q + 1
  else if 2 * r < b then q
  else if q % 2 = 0 then q else q + 1

/-- A wei amount expressed in millionths of one G$ (G$ has 18 decimals, so
one millionth of a G$ is `10^12` wei). -/
def microUnits (wei : Nat) : Nat := roundHalfEven wei 1000000000000

/-- Render an amount of micro-G$ as `intpart.dddddd`. -/
def formatMicro (m : Nat) : String :=
  toString (m / 1000000) ++ "." ++ pad6 (m % 1000000)

/-- Embedding of `f"{amount_wei / (10 ** 18):.6f} G$"`. -/
def formatAmount (wei : Int) : String :=
  if wei < 0 then "-" ++ formatMicro (microUnits wei.natAbs) ++ " G$"
  else formatMicro (microUnits wei.natAbs) ++ " G$"

/-- Default of the `UBI_PROXY` entry of `GOODDOLLAR_CONTRACTS`. -/
def UBI_PROXY : String := "0x43d72Ff17701B2DA814620735C39C620Ce0ea4A1"

/-- Default of the `GOODDOLLAR_TOKEN` entry of `GOODDOLLAR_CONTRACTS`. -/
def GOODDOLLAR_TOKEN : String := "0x62B8B11039FcfE5aB0C56E502b1C372A3d2a9c7A"

/-- ERC20 `Transfer` event signature topic. -/
def SIG_TRANSFER : String :=
  "0xddf252ad1be2c89b69c2b068fc378daa952ba7f163c4a11628f55a4df523b3ef"

/-- `UBIClaimed(address,uint256)` event signature topic. -/
def SIG_UBI_CLAIMED : String :=
  "0x89ed24731df6b066e4c5186901fffdba18cd9a10f07494aff900bdee260d1304"

/-- `UBICalculated(uint256,uint256,uint256)` event signature topic. -/
def SIG_UBI_CALCULATED : String :=
  "0x836fa39995340265746dfe9587d9fe5c5de35b7bce778afd9b124ce1cfeafdc4"

/-- `UBICycleCalculated(uint256,uint256,uint256,uint256)` event signature
topic. -/
def SIG_UBI_CYCLE_CALCULATED : String :=
  "0x83e0d535b9e84324e0a25922406398d6ff5f96d0c686204ee490e16d7670566f"

/-- The `UBI_EVENT_SIGNATURES` dictionary in its insertion order. -/
def UBI_EVENT_SIGNATURES : List (String × String) :=
  [("TRANSFER", SIG_TRANSFER),
   ("UBI_CLAIMED", SIG_UBI_CLAIMED),
   ("UBI_CALCULATED", SIG_UBI_CALCULATED),
   ("UBI_CYCLE_CALCULATED", SIG_UBI_CYCLE_CALCULATED)]

/-- The event names the code filters by claimer topic
(src/blockchain.py:536,564). -/
def claimantEvents : List String :=
  ["UBI_CLAIMED", "CLAIM", "REWARD_CLAIMED", "UBI_DISTRIBUTED", "DAILY_UBI"]

/-- Embedding of `_get_latest_block_number` (src/blockchain.py:250-264):
the decoded head on success, the sentinel `0` on failure. -/
def _get_latest_block_number (o : Oracle) : Nat :=
  match o.blockNumber with
  | some n => n
  | none => 0

/-- Embedding of `_calculate_block_range` (src/blockchain.py:267-274) with
`blocks_per_hour = 720`. -/
def _calculate_block_range (o : Oracle) (hours_back : Nat) : Int × Int :=
  let latest : Int := _get_latest_block_number o
  (latest - hours_back * 720, latest)

/-- Amount string of the transfer path (src/blockchain.py:499-505,515):
`amount_g` falls back to `0` when `int(amount_hex, 16)` raises, and the
formatted string is emitted unconditionally. -/
def transferAmountStr (data : String) : String :=
  match parseHexInt data with
  | some w => formatAmount w
  | none => formatAmount 0

/-- Amount string of the named-event path (src/blockchain.py:583-600): the
`topics[2]` fallback runs only inside the `except` of the first attempt,
i.e. only when `data` is non-empty, differs from `"0x"`, and still fails to
parse; an empty or `"0x"` data field keeps the placeholder without
consulting the topics. -/
def eventAmountStr (data : String) (topics : List String) : String :=
  if data ≠ "" ∧ data ≠ "0x" then
    match parseHexInt data with
    | some w => formatAmount w
    | none =>
      match topics.get? 2 with
      | some t =>
        match parseHexInt t with
        | some w => formatAmount w
        | none => "Event logged"
      | none => "Event logged"
  else "Event logged"

/-- Activity dictionary built for one G$ transfer log
(src/blockchain.py:507-517). -/
def mkUbiClaimRecord (o : Oracle) (lg : LogEntry) : ActivityRecord :=
  { contract := "UBI Proxy"
    contract_address := UBI_PROXY
    block := lg.blockNumber
    tx_hash := lg.transactionHash
    timestamp := o.formatTs lg.blockNumber
    method := "UBI claim"
    status := "success"
    amount := transferAmountStr lg.data
    activity_type := "ubi_claim" }

/-- Python `event_name.lower().replace("_", " ")`. -/
def methodLabel (eventName : String) : String :=
  ⟨(pyLower eventName).data.map (fun c => if c = '_' then ' ' else c)⟩

/-- Activity dictionary built for one named-event log
(src/blockchain.py:602-612). -/
def mkUbiEventRecord (o : Oracle) (eventName : String) (lg : LogEntry) :
    ActivityRecord :=
  { contract := "UBI Proxy"
    contract_address := UBI_PROXY
    block := lg.blockNumber
    tx_hash := lg.transactionHash
    timestamp := o.formatTs lg.blockNumber
    method := methodLabel eventName
    status := "success"
    amount := eventAmountStr lg.data lg.topics
    activity_type := "ubi_event" }

/-- The G$-transfer query of `has_recent_ubi_claim`
(src/blockchain.py:470-484). -/
def transferQuery (wallet : String) (fb tb : Int) : LogQuery :=
  { fromBlock := fb
    toBlock := tb
    address := GOODDOLLAR_TOKEN
    topics := [some SIG_TRANSFER,
               some (_topic_for_address UBI_PROXY),
               some (_topic_for_address wallet)] }

/-- The diagnostic query issued first (src/blockchain.py:444-454); its
response is only printed, so the step contributes one network call and no
records. -/
def testQuery (fb tb : Int) : LogQuery :=
  { fromBlock := fb, toBlock := tb, address := UBI_PROXY
    topics := [some SIG_UBI_CLAIMED] }

/-- Transfer step (src/blockchain.py:486-523): one `eth_getLogs` call plus
one `_format_timestamp` call per matched log; a `none` response (RPC error
or exception) contributes no records. -/
def transferStep (o : Oracle) (wallet : String) (fb tb : Int) :
    List ActivityRecord × Nat :=
  match o.getLogs (transferQuery wallet fb tb) with
  | none => ([], 1)
  | some logs => (logs.map (mkUbiClaimRecord o), 1 + logs.length)

/-- The query of one named-event iteration (src/blockchain.py:532-552). -/
def eventQuery (wallet : String) (fb tb : Int) (name sig : String) :
    LogQuery :=
  { fromBlock := fb
    toBlock := tb
    address := UBI_PROXY
    topics :=
      if name ∈ claimantEvents then
        [some sig, some (_topic_for_address wallet)]
      else [some sig, none] }

/-- One iteration of the named-event loop (src/blockchain.py:526-619):
query, optional manual filtering by the wallet topic, then one
`_format_timestamp` call per surviving log. -/
def eventStep (o : Oracle) (wallet : String) (fb tb : Int)
    (name sig : String) : List ActivityRecord × Nat :=
  match o.getLogs (eventQuery wallet fb tb name sig) with
  | none => ([], 1)
  | some logs =>
    let logs :=
      if name ∈ claimantEvents then logs
      else logs.filter (fun lg => _topic_for_address wallet ∈ lg.topics)
    (logs.map (mkUbiEventRecord o name), 1 + logs.length)

/-- The whole named-event loop (src/blockchain.py:526-619): iterating
`UBI_EVENT_SIGNATURES` in dict insertion order while skipping `TRANSFER`
visits exactly `UBI_CLAIMED`, `UBI_CALCULATED`, `UBI_CYCLE_CALCULATED`. -/
def eventsStep (o : Oracle) (wallet : String) (fb tb : Int) :
    List ActivityRecord × Nat :=
  let e1 := eventStep o wallet fb tb "UBI_CLAIMED" SIG_UBI_CLAIMED
  let e2 := eventStep o wallet fb tb "UBI_CALCULATED" SIG_UBI_CALCULATED
  let e3 := eventStep o wallet fb tb "UBI_CYCLE_CALCULATED" SIG_UBI_CYCLE_CALCULATED
  (e1.1 ++ e2.1 ++ e3.1, e1.2 + e2.2 + e3.2)

/-- The activity list and network-call count accumulated by one cache-miss
run of `has_recent_ubi_claim` before the verdict is built: one
`eth_blockNumber` call, the diagnostic query, the transfer query, then the
named-event loop, in the order of src/blockchain.py:434-619. -/
def aggregate (o : Oracle) (wallet : String) : List ActivityRecord × Nat :=
  let r := _calculate_block_range o 48
  let t := transferStep o wallet r.1 r.2
  let e := eventsStep o wallet r.1 r.2
  (t.1 ++ e.1, 1 + 1 + t.2 + e.2)

/-- Descending-block ordering used by
`all_activities.sort(key=lambda x: x['block'], reverse=True)`. -/
def blockDesc (a b : ActivityRecord) : Prop := b.block ≤ a.block

instance : DecidableRel blockDesc := fun a b => Nat.decLe b.block a.block

instance : IsTotal ActivityRecord blockDesc :=
  ⟨fun a b => (Nat.le_total b.block a.block).elim Or.inl Or.inr⟩

instance : IsTrans ActivityRecord blockDesc :=
  ⟨fun _ _ _ h1 h2 => Nat.le_trans h2 h1⟩

/-- Python's stable in-place sort with `reverse=True` on the block key. -/
def sortActivities (l : List ActivityRecord) : List ActivityRecord :=
  List.insertionSort blockDesc l

/-- Python `s[:16]`. -/
def truncTx (s : String) : String := ⟨s.data.take 16⟩

/-- One line of the top-5 listing (src/blockchain.py:660). -/
def activityLine (p : Nat × ActivityRecord) : String :=
  "   " ++ toString (p.1 + 1) ++ ". " ++ p.2.amount ++ " (" ++ p.2.method
    ++ ") - " ++ p.2.timestamp ++ "\n"

/-- The success message assembled at src/blockchain.py:644-663, with
`acts` the sorted activity list. -/
def successMessage (acts : List ActivityRecord) (nclaims nevents : Nat)
    (latest : ActivityRecord) : String :=
  "✅ UBI VERIFICATION SUCCESS!\n\n"
    ++ "🎯 Found " ++ toString acts.length
    ++ " UBI activities from UBI Proxy contract\n"
    ++ "   💰 UBI Claims: " ++ toString nclaims ++ "\n"
    ++ "   📋 Events: " ++ toString nevents ++ "\n\n"
    ++ "🕐 Most Recent Activity:\n"
    ++ "   Contract: " ++ latest.contract ++ "\n"
    ++ "   Type: " ++ latest.method ++ "\n"
    ++ "   Amount: " ++ latest.amount ++ "\n"
    ++ "   Block: #" ++ toString latest.block ++ "\n"
    ++ "   Time: " ++ latest.timestamp ++ "\n"
    ++ "   Tx: " ++ truncTx latest.tx_hash ++ "...\n"
    ++ (if acts.length > 1 then
          "\n📊 All UBI Activities (last 24 hours):\n"
            ++ String.join (((acts.take 5).enum).map activityLine)
            ++ (if acts.length > 5 then
                  "   ... and " ++ toString (acts.length - 5)
                    ++ " more activities\n"
                else "")
        else "")

/-- The fixed no-activity message of src/blockchain.py:686-694, with
`search_hours = 48` interpolated. -/
def noActivityMessage : String :=
  "⚠️ No recent UBI claim detected in the last 48 hours.\n\nPlease:\n1. Visit goodwallet.xyz or gooddapp.org\n2. Claim your daily G$ (UBI)\n3. Wait 2-3 minutes for blockchain confirmation\n4. Try logging in again\n\nNote: It may take a few minutes for your claim to be confirmed on the Celo blockchain."

/-- The whole no-activity error dictionary of src/blockchain.py:696-699. -/
def noActivityResult : VerificationResult :=
  { status := "error", message := noActivityMessage,
    activities := none, summary := none }

/-- Verdict construction (src/blockchain.py:635-702): sort descending by
block, take the head as the latest activity, partition the counts by
activity type, and assemble the result dictionaries. -/
def buildVerdict (acts : List ActivityRecord) : VerificationResult :=
  match acts with
  | [] => noActivityResult
  | _ =>
    let sorted := sortActivities acts
    let latest := sorted.headI
    let nclaims :=
      (sorted.filter (fun a => a.activity_type = "ubi_claim")).length
    let nevents :=
      (sorted.filter (fun a => a.activity_type = "ubi_event")).length
    { status := "success"
      message := successMessage sorted nclaims nevents latest
      activities := some sorted
      summary := some
        { total_activities := sorted.length
          claims := nclaims
          events := nevents
          contracts_involved := 1
          latest_activity := latest } }

/-- One cache-miss computation of `has_recent_ubi_claim`: aggregation plus
verdict; the empty branch performs one extra `_get_latest_block_number`
diagnostic call (src/blockchain.py:625-633). -/
def computeUbi (o : Oracle) (wallet : String) : VerificationResult × Nat :=
  let a := aggregate o wallet
  match a.1 with
  | [] => (buildVerdict [], a.2 + 1)
  | acts => (buildVerdict acts, a.2)

/-- The cache: wallet key, stored result, insertion time, kept in Python
dict insertion order. -/
abbrev Cache := List (String × VerificationResult × Nat)

/-- `_UBI_CACHE_TTL`. -/
def UBI_CACHE_TTL : Nat := 300

/-- `_UBI_CACHE_MAX_SIZE`. -/
def UBI_CACHE_MAX_SIZE : Nat := 1000

/-- Ascending insertion-time ordering used by the eviction sweep's
`sorted(keys, key=timestamp)` (stable, like Python's `sorted`). -/
def tsAsc (a b : String × VerificationResult × Nat) : Prop := a.2.2 ≤ b.2.2

instance : DecidableRel tsAsc := fun a b => Nat.decLe a.2.2 b.2.2

instance : IsTotal (String × VerificationResult × Nat) tsAsc :=
  ⟨fun a b => (Nat.le_total a.2.2 b.2.2).elim Or.inl Or.inr⟩

instance : IsTrans (String × VerificationResult × Nat) tsAsc :=
  ⟨fun _ _ _ h1 h2 => Nat.le_trans h1 h2⟩

/-- Embedding of `_cleanup_expired_cache` (src/blockchain.py:14-29): drop
entries aged `≥ TTL`, then, if more than `_UBI_CACHE_MAX_SIZE` entries
remain, delete the keys of the `len - max` globally oldest entries. -/
def _cleanup_expired_cache (now : Nat) (c : Cache) : Cache :=
  let c1 := c.filter (fun e => now - e.2.2 < UBI_CACHE_TTL)
  if c1.length > UBI_CACHE_MAX_SIZE then
    let victims :=
      ((List.insertionSort tsAsc c1).take (c1.length - UBI_CACHE_MAX_SIZE)).map
        (fun e => e.1)
    c1.filter (fun e => e.1 ∉ victims)
  else c1

/-- The cache read of src/blockchain.py:417-421. -/
def cacheLookup (c : Cache) (key : String) (now : Nat) :
    Option VerificationResult :=
  match c.find? (fun e => e.1 = key) with
  | some e => if now - e.2.2 < UBI_CACHE_TTL then some e.2.1 else none
  | none => none

/-- The cache write `_ubi_cache[cache_key] = (result, current_time)`:
update in place when the key exists (Python dicts keep the position),
append otherwise. -/
def cacheStore (c : Cache) (key : String) (r : VerificationResult)
    (now : Nat) : Cache :=
  if c.any (fun e => e.1 = key) then
    c.map (fun e => if e.1 = key then (key, r, now) else e)
  else c ++ [(key, r, now)]

/-- Embedding of `has_recent_ubi_claim` (src/blockchain.py:401-707).
Returns the result, the cache state after the call, and the number of
modelled network round trips issued. -/
def has_recent_ubi_claim (o : Oracle) (now : Nat) (c : Cache)
    (wallet_address : String) : VerificationResult × Cache × Nat :=
  let c1 := _cleanup_expired_cache now c
  let key := pyLower wallet_address
  match cacheLookup c1 key now with
  | some r => (r, c1, 0)
  | none =>
    match o.fatal with
    | some e =>
      ({ status := "error", message := "⚠️ UBI verification failed: " ++ e,
         activities := none, summary := none }, c1, 0)
    | none =>
      let rc := computeUbi o wallet_address
      (rc.1, cacheStore c1 key rc.1 now, rc.2)

/-- The characters `_topic_for_address` may meet in the 40-character address
body of a well-formed wallet. -/
def isHexChar (c : Char) : Prop :=
  c ∈ ['0', 'a', 'A', '1', 'b', 'B', '2', 'c', 'C', '3', 'd', 'D',
       '4', 'e', 'E', '5', 'f', 'F', '6', '7', '8', '9']

instance (c : Char) : Decidable (isHexChar c) := by
  unfold isHexChar
  infer_instance

theorem pyToLower_hexChar_ne_x (c : Char) (h : isHexChar c) :
    pyToLower c ≠ 'x' := by
  unfold isHexChar at h
  fin_cases h <;> decide

theorem pyToLower_hexChar_isHexChar (c : Char) (h : isHexChar c) :
    isHexChar (pyToLower c) := by
  unfold isHexChar at h
  fin_cases h <;> decide

theorem remove0x_no_x (l : List Char) (h : ∀ c ∈ l, c ≠ 'x') :
    remove0x l = l := by
  induction l with
  | nil => rfl
  | cons c tl ih =>
    cases tl with
    | nil => rfl
    | cons c2 rest =>
      have hc2 : c2 ≠ 'x' := h c2 (by simp)
      have hcond : ¬(c = '0' ∧ c2 = 'x') := fun hx => hc2 hx.2
      have htail : remove0x (c2 :: rest) = c2 :: rest := by
        refine ih ?_
        intro d hd
        exact h d (List.mem_cons_of_mem _ hd)
      rw [remove0x, if_neg hcond, htail]

/-- C8: for every wallet address of the form `0x` followed by 40 hex
characters, `_topic_for_address` yields exactly the 66-character string
`0x`, then 24 zero characters, then the lower-cased 40-character address
body (the 20-byte address left-padded to the 32-byte topic width). -/
theorem C8_topic_for_address_padding (w : String) (cs : List Char)
    (hw : w.data = '0' :: 'x' :: cs) (hlen : cs.length = 40)
    (hhex : ∀ c ∈ cs, isHexChar c) :
    _topic_for_address w =
      ⟨'0' :: 'x' :: (List.replicate 24 '0' ++ cs.map pyToLower)⟩ ∧
    (_topic_for_address w).length = 66 := by
  have h0 : pyToLower '0' = '0' := by decide
  have hx : pyToLower 'x' = 'x' := by decide
  have h1 : pyLower w = ⟨'0' :: 'x' :: cs.map pyToLower⟩ := by
    unfold pyLower
    rw [hw, List.map_cons, List.map_cons, h0, hx]
  have hnox : ∀ c ∈ cs.map pyToLower, c ≠ 'x' := by
    intro c hc
    rcases List.mem_map.mp hc with ⟨d, hd, rfl⟩
    exact pyToLower_hexChar_ne_x d (hhex d hd)
  have h2 : pyReplace0x (pyLower w) = ⟨cs.map pyToLower⟩ := by
    rw [h1]
    unfold pyReplace0x
    show (⟨remove0x ('0' :: 'x' :: cs.map pyToLower)⟩ : String) = _
    rw [remove0x, if_pos ⟨rfl, rfl⟩, remove0x_no_x _ hnox]
  have hdata : ("0x" ++ "000000000000000000000000").data =
      '0' :: 'x' :: List.replicate 24 '0' := by decide
  have h3 : _topic_for_address w =
      ⟨'0' :: 'x' :: (List.replicate 24 '0' ++ cs.map pyToLower)⟩ := by
    unfold _topic_for_address
    rw [h2]
    show (⟨("0x" ++ "000000000000000000000000").data ++ cs.map pyToLower⟩ :
      String) = _
    rw [hdata]
    rfl
  refine ⟨h3, ?_⟩
  rw [h3]
  show ('0' :: 'x' :: (List.replicate 24 '0' ++ cs.map pyToLower)).length = 66
  simp [List.length_append, hlen]

/-- C8 witness: the padded topic of the concrete wallet
`0xFf00A683f7bD77665754A65F2B82fdEFc4371a50`. -/
theorem C8_topic_for_address_padding_witness :
    _topic_for_address "0xFf00A683f7bD77665754A65F2B82fdEFc4371a50" =
      "0x000000000000000000000000ff00a683f7bd77665754a65f2b82fdefc4371a50" ∧
    (_topic_for_address "0xFf00A683f7bD77665754A65F2B82fdEFc4371a50").length
      = 66 := by
  have h := C8_topic_for_address_padding
    "0xFf00A683f7bD77665754A65F2B82fdEFc4371a50"
    ("Ff00A683f7bD77665754A65F2B82fdEFc4371a50" : String).data
    (by decide) (by decide) (by decide)
  exact ⟨h.1.trans (by decide), h.2⟩

theorem transferStep_nil (o : Oracle) (wallet : String) (fb tb : Int)
    (h : o.getLogs (transferQuery wallet fb tb) = none ∨
         o.getLogs (transferQuery wallet fb tb) = some []) :
    (transferStep o wallet fb tb).1 = [] := by
  rcases h with h | h <;> simp [transferStep, h]

theorem eventStep_nil (o : Oracle) (wallet : String) (fb tb : Int)
    (name sig : String)
    (h : o.getLogs (eventQuery wallet fb tb name sig) = none ∨
         o.getLogs (eventQuery wallet fb tb name sig) = some []) :
    (eventStep o wallet fb tb name sig).1 = [] := by
  rcases h with h | h <;> simp [eventStep, h]

theorem aggregate_nil (o : Oracle) (wallet : String)
    (h : ∀ q, o.getLogs q = none ∨ o.getLogs q = some []) :
    (aggregate o wallet).1 = [] := by
  unfold aggregate eventsStep
  simp only [transferStep_nil o wallet _ _ (h _),
    eventStep_nil o wallet _ _ _ _ (h _), List.append_nil, List.nil_append]

theorem computeUbi_of_nil (o : Oracle) (wallet : String)
    (h : (aggregate o wallet).1 = []) :
    computeUbi o wallet = (noActivityResult, (aggregate o wallet).2 + 1) := by
  simp only [computeUbi]
  rw [h]
  rfl

theorem has_recent_ubi_claim_hit (o : Oracle) (now : Nat) (c : Cache)
    (wallet : String) (r : VerificationResult)
    (hhit : cacheLookup (_cleanup_expired_cache now c) (pyLower wallet) now
      = some r) :
    has_recent_ubi_claim o now c wallet =
      (r, _cleanup_expired_cache now c, 0) := by
  simp only [has_recent_ubi_claim, hhit]

theorem has_recent_ubi_claim_miss (o : Oracle) (now : Nat) (c : Cache)
    (wallet : String)
    (hmiss : cacheLookup (_cleanup_expired_cache now c) (pyLower wallet) now
      = none)
    (hfatal : o.fatal = none) :
    has_recent_ubi_claim o now c wallet =
      ((computeUbi o wallet).1,
       cacheStore (_cleanup_expired_cache now c) (pyLower wallet)
         (computeUbi o wallet).1 now,
       (computeUbi o wallet).2) := by
  simp only [has_recent_ubi_claim, hmiss, hfatal]

theorem has_recent_ubi_claim_fatal (o : Oracle) (now : Nat) (c : Cache)
    (wallet : String) (e : String)
    (hmiss : cacheLookup (_cleanup_expired_cache now c) (pyLower wallet) now
      = none)
    (hfatal : o.fatal = some e) :
    has_recent_ubi_claim o now c wallet =
      ({ status := "error", message := "⚠️ UBI verification failed: " ++ e,
         activities := none, summary := none },
       _cleanup_expired_cache now c, 0) := by
  simp only [has_recent_ubi_claim, hmiss, hfatal]

/-- C9: for a lookback of `h` hours the resolver returns
`(head - h*720, head)` with the live chain head; when the head query fails
the head is the sentinel `0` instead of a raised exception; and with the
degraded range (and every log query failing on it) the verifier still
completes with the zero-activity error result rather than crashing. -/
theorem C9_calculate_block_range (o : Oracle) (h : Nat) :
    (∀ n : Nat, o.blockNumber = some n →
      _calculate_block_range o h = ((n : Int) - (h : Int) * 720, (n : Int))) ∧
    (o.blockNumber = none →
      _calculate_block_range o h = (0 - (h : Int) * 720, 0)) ∧
    (∀ (now : Nat) (c : Cache) (wallet : String),
      o.blockNumber = none → o.fatal = none →
      (∀ q, o.getLogs q = none) →
      cacheLookup (_cleanup_expired_cache now c) (pyLower wallet) now
        = none →
      (has_recent_ubi_claim o now c wallet).1 = noActivityResult) := by
  refine ⟨?_, ?_, ?_⟩
  · intro n hbn
    unfold _calculate_block_range _get_latest_block_number
    rw [hbn]
  · intro hbn
    unfold _calculate_block_range _get_latest_block_number
    rw [hbn]
    rfl
  · intro now c wallet _ hfatal hlogs hmiss
    rw [has_recent_ubi_claim_miss o now c wallet hmiss hfatal]
    rw [computeUbi_of_nil o wallet
      (aggregate_nil o wallet (fun q => Or.inl (hlogs q)))]

/-- Concrete degraded oracle: the head query and every log query fail. -/
def oracleDown : Oracle :=
  { blockNumber := none, getLogs := fun _ => none,
    formatTs := fun _ => "", fatal := none }

/-- Concrete healthy-head oracle with no matching logs. -/
def oracleHead : Oracle :=
  { blockNumber := some 100000, getLogs := fun _ => some [],
    formatTs := fun _ => "", fatal := none }

/-- C9 witness: concrete block ranges for a live head of 100000 and for a
failed head query, and the degraded-oracle verification outcome. -/
theorem C9_calculate_block_range_witness :
    _calculate_block_range oracleHead 48 = (65440, 100000) ∧
    _calculate_block_range oracleDown 48 = (-34560, 0) ∧
    (has_recent_ubi_claim oracleDown 0 [] "0xAb").1 = noActivityResult := by
  refine ⟨?_, ?_, ?_⟩
  · exact ((C9_calculate_block_range oracleHead 48).1 100000 rfl).trans
      (by norm_num)
  · exact ((C9_calculate_block_range oracleDown 48).2.1 rfl).trans
      (by norm_num)
  · exact (C9_calculate_block_range oracleDown 48).2.2 0 [] "0xAb" rfl rfl
      (fun _ => rfl) rfl

theorem eventStep_nil_filtered (o : Oracle) (wallet : String) (fb tb : Int)
    (name sig : String) (hname : name ∉ claimantEvents)
    (h : ∀ logs, o.getLogs (eventQuery wallet fb tb name sig) = some logs →
      logs.filter (fun lg => _topic_for_address wallet ∈ lg.topics) = []) :
    (eventStep o wallet fb tb name sig).1 = [] := by
  unfold eventStep
  cases hl : o.getLogs (eventQuery wallet fb tb name sig) with
  | none => rfl
  | some logs =>
    simp only
    rw [if_neg hname, h logs hl]
    rfl

theorem aggregate_nil_of_no_matching (o : Oracle) (wallet : String)
    (htr : o.getLogs (transferQuery wallet (_calculate_block_range o 48).1
        (_calculate_block_range o 48).2) = none ∨
      o.getLogs (transferQuery wallet (_calculate_block_range o 48).1
        (_calculate_block_range o 48).2) = some [])
    (hclaimed : o.getLogs (eventQuery wallet
        (_calculate_block_range o 48).1 (_calculate_block_range o 48).2
        "UBI_CLAIMED" SIG_UBI_CLAIMED) = none ∨
      o.getLogs (eventQuery wallet
        (_calculate_block_range o 48).1 (_calculate_block_range o 48).2
        "UBI_CLAIMED" SIG_UBI_CLAIMED) = some [])
    (hcalc : ∀ logs, o.getLogs (eventQuery wallet
        (_calculate_block_range o 48).1 (_calculate_block_range o 48).2
        "UBI_CALCULATED" SIG_UBI_CALCULATED) = some logs →
      logs.filter (fun lg => _topic_for_address wallet ∈ lg.topics) = [])
    (hcycle : ∀ logs, o.getLogs (eventQuery wallet
        (_calculate_block_range o 48).1 (_calculate_block_range o 48).2
        "UBI_CYCLE_CALCULATED" SIG_UBI_CYCLE_CALCULATED) = some logs →
      logs.filter (fun lg => _topic_for_address wallet ∈ lg.topics) = []) :
    (aggregate o wallet).1 = [] := by
  unfold aggregate eventsStep
  simp only [transferStep_nil o wallet _ _ htr,
    eventStep_nil o wallet _ _ _ _ hclaimed,
    eventStep_nil_filtered o wallet _ _ _ _ (by decide) hcalc,
    eventStep_nil_filtered o wallet _ _ _ _ (by decide) hcycle,
    List.append_nil, List.nil_append]

/-- C2: a call in which every log sub-query yields zero logs matching the
wallet (and no unexpected exception occurs) returns status `error` with
the fixed remediation message pointing at goodwallet.xyz / gooddapp.org,
and the result carries no `summary` and no `activities` field.  The two
server-side wallet-filtered sub-queries (the G$ transfer and
`UBI_CLAIMED`) yield zero matching logs by failing or coming back empty;
the two wildcard sub-queries (`UBI_CALCULATED`, `UBI_CYCLE_CALCULATED`)
may come back with arbitrary logs as long as none carries the wallet's
topic, in which case the manual filter of src/blockchain.py:563-572
discards them all. -/
theorem C2_zero_matching_logs_fixed_error (o : Oracle) (now : Nat)
    (c : Cache) (wallet : String)
    (hfatal : o.fatal = none)
    (htr : o.getLogs (transferQuery wallet (_calculate_block_range o 48).1
        (_calculate_block_range o 48).2) = none ∨
      o.getLogs (transferQuery wallet (_calculate_block_range o 48).1
        (_calculate_block_range o 48).2) = some [])
    (hclaimed : o.getLogs (eventQuery wallet
        (_calculate_block_range o 48).1 (_calculate_block_range o 48).2
        "UBI_CLAIMED" SIG_UBI_CLAIMED) = none ∨
      o.getLogs (eventQuery wallet
        (_calculate_block_range o 48).1 (_calculate_block_range o 48).2
        "UBI_CLAIMED" SIG_UBI_CLAIMED) = some [])
    (hcalc : ∀ logs, o.getLogs (eventQuery wallet
        (_calculate_block_range o 48).1 (_calculate_block_range o 48).2
        "UBI_CALCULATED" SIG_UBI_CALCULATED) = some logs →
      logs.filter (fun lg => _topic_for_address wallet ∈ lg.topics) = [])
    (hcycle : ∀ logs, o.getLogs (eventQuery wallet
        (_calculate_block_range o 48).1 (_calculate_block_range o 48).2
        "UBI_CYCLE_CALCULATED" SIG_UBI_CYCLE_CALCULATED) = some logs →
      logs.filter (fun lg => _topic_for_address wallet ∈ lg.topics) = [])
    (hmiss : cacheLookup (_cleanup_expired_cache now c) (pyLower wallet) now
      = none) :
    (has_recent_ubi_claim o now c wallet).1 = noActivityResult ∧
    noActivityResult.status = "error" ∧
    noActivityResult.message = noActivityMessage ∧
    noActivityResult.activities = none ∧
    noActivityResult.summary = none := by
  refine ⟨?_, rfl, rfl, rfl, rfl⟩
  rw [has_recent_ubi_claim_miss o now c wallet hmiss hfatal]
  rw [computeUbi_of_nil o wallet
    (aggregate_nil_of_no_matching o wallet htr hclaimed hcalc hcycle)]

/-- A log another wallet's activity produced: its topics do not contain
the topic of the wallet under verification. -/
def logOther : LogEntry :=
  { blockNumber := 600
    transactionHash := "0xfeed"
    data := "0x0de0b6b3a7640000"
    topics := [SIG_UBI_CALCULATED, _topic_for_address "0xCd"] }

/-- Oracle whose two wildcard sub-queries come back with a non-empty log
list that matches a different wallet, while the wallet-filtered
sub-queries come back empty. -/
def oracleOther : Oracle :=
  { blockNumber := some 100000
    getLogs := fun q =>
      if q = eventQuery "0xAb" (100000 - 48 * 720) 100000 "UBI_CALCULATED"
          SIG_UBI_CALCULATED ∨
         q = eventQuery "0xAb" (100000 - 48 * 720) 100000
          "UBI_CYCLE_CALCULATED" SIG_UBI_CYCLE_CALCULATED
      then some [logOther] else some []
    formatTs := fun n => "ts" ++ toString n
    fatal := none }

/-- C2 witness: the wildcard sub-queries return one log that the manual
wallet filter discards (its topics do not carry the wallet's topic), and
the call still produces the fixed error result. -/
theorem C2_zero_matching_logs_fixed_error_witness :
    (has_recent_ubi_claim oracleOther 0 [] "0xAb").1 = noActivityResult ∧
    oracleOther.getLogs (eventQuery "0xAb"
      (_calculate_block_range oracleOther 48).1
      (_calculate_block_range oracleOther 48).2 "UBI_CALCULATED"
      SIG_UBI_CALCULATED) = some [logOther] ∧
    _topic_for_address "0xAb" ∉ logOther.topics := by
  have hq : oracleOther.getLogs (eventQuery "0xAb"
      (_calculate_block_range oracleOther 48).1
      (_calculate_block_range oracleOther 48).2 "UBI_CALCULATED"
      SIG_UBI_CALCULATED) = some [logOther] := by decide
  have hq2 : oracleOther.getLogs (eventQuery "0xAb"
      (_calculate_block_range oracleOther 48).1
      (_calculate_block_range oracleOther 48).2 "UBI_CYCLE_CALCULATED"
      SIG_UBI_CYCLE_CALCULATED) = some [logOther] := by decide
  refine ⟨?_, hq, by decide⟩
  exact (C2_zero_matching_logs_fixed_error oracleOther 0 [] "0xAb" rfl
    (Or.inr (by decide)) (Or.inr (by decide))
    (fun logs h => by
      rw [hq] at h
      cases h
      decide)
    (fun logs h => by
      rw [hq2] at h
      cases h
      decide)
    rfl).1

theorem cleanup_mem_fresh (now : Nat) (c : Cache) :
    ∀ e ∈ _cleanup_expired_cache now c,
      e ∈ c ∧ now - e.2.2 < UBI_CACHE_TTL := by
  intro e he
  simp only [_cleanup_expired_cache] at he
  split at he
  · have h1 := List.mem_filter.mp he
    have h2 := List.mem_filter.mp h1.1
    exact ⟨h2.1, by simpa using h2.2⟩
  · have h2 := List.mem_filter.mp he
    exact ⟨h2.1, by simpa using h2.2⟩

theorem cacheLookup_cleanup_none_not_mem (now : Nat) (c : Cache)
    (key : String)
    (h : cacheLookup (_cleanup_expired_cache now c) key now = none) :
    ∀ e ∈ _cleanup_expired_cache now c, e.1 ≠ key := by
  intro e he hk
  unfold cacheLookup at h
  cases hf : (_cleanup_expired_cache now c).find? (fun x => x.1 = key) with
  | none =>
    have := List.find?_eq_none.mp hf e he
    simp [hk] at this
  | some e2 =>
    rw [hf] at h
    have hm := List.mem_of_find?_eq_some hf
    have hfr := (cleanup_mem_fresh now c e2 hm).2
    have h2 : (if now - e2.2.2 < UBI_CACHE_TTL then some e2.2.1 else none)
        = (none : Option VerificationResult) := h
    rw [if_pos hfr] at h2
    exact Option.noConfusion h2

theorem cacheStore_append (c : Cache) (key : String) (r : VerificationResult)
    (now : Nat) (h : ∀ e ∈ c, e.1 ≠ key) :
    cacheStore c key r now = c ++ [(key, r, now)] := by
  unfold cacheStore
  rw [if_neg]
  intro hany
  rcases List.any_eq_true.mp hany with ⟨e, he, hk⟩
  exact h e he (by simpa using hk)

theorem cacheLookup_append_self (c : Cache) (key : String)
    (r : VerificationResult) (now now2 : Nat)
    (h : ∀ e ∈ c, e.1 ≠ key) (hfr : now2 - now < UBI_CACHE_TTL) :
    cacheLookup (c ++ [(key, r, now)]) key now2 = some r := by
  unfold cacheLookup
  rw [List.find?_append]
  have h1 : c.find? (fun e => e.1 = key) = none :=
    List.find?_eq_none.mpr (fun e he => by simpa using h e he)
  rw [h1]
  simp [List.find?, hfr]

theorem computeUbi_status (o : Oracle) (w : String) :
    (computeUbi o w).1.status = "success" ∨
    (computeUbi o w).1.status = "error" := by
  simp only [computeUbi]
  cases h : (aggregate o w).1 with
  | nil => right; rfl
  | cons a t => left; rfl

/-- C5: a result is stored exactly when the computation completes normally.
On a cache miss with no unexpected exception, the computed result (whose
status is `success` or `error`) is appended verbatim under the lower-cased
wallet key and is immediately retrievable from the cache; on the
unexpected-exception path the wrapped error is returned and no store
happens (the call leaves only the initial cleanup's effect). -/
theorem C5_store_exactly_on_normal_completion (o : Oracle) (now : Nat)
    (c : Cache) (wallet : String)
    (hmiss : cacheLookup (_cleanup_expired_cache now c) (pyLower wallet) now
      = none) :
    (o.fatal = none →
      has_recent_ubi_claim o now c wallet =
        ((computeUbi o wallet).1,
         _cleanup_expired_cache now c
           ++ [(pyLower wallet, (computeUbi o wallet).1, now)],
         (computeUbi o wallet).2) ∧
      cacheLookup
        ((has_recent_ubi_claim o now c wallet).2.1) (pyLower wallet) now
        = some (computeUbi o wallet).1 ∧
      ((computeUbi o wallet).1.status = "success" ∨
       (computeUbi o wallet).1.status = "error")) ∧
    (∀ e, o.fatal = some e →
      has_recent_ubi_claim o now c wallet =
        ({ status := "error", message := "⚠️ UBI verification failed: " ++ e,
           activities := none, summary := none },
         _cleanup_expired_cache now c, 0)) := by
  have hnotmem := cacheLookup_cleanup_none_not_mem now c (pyLower wallet) hmiss
  constructor
  · intro hfatal
    have hrun := has_recent_ubi_claim_miss o now c wallet hmiss hfatal
    have hstore := cacheStore_append (_cleanup_expired_cache now c)
      (pyLower wallet) (computeUbi o wallet).1 now hnotmem
    refine ⟨by rw [hrun, hstore], ?_, computeUbi_status o wallet⟩
    rw [hrun]
    show cacheLookup
      (cacheStore (_cleanup_expired_cache now c) (pyLower wallet)
        (computeUbi o wallet).1 now) (pyLower wallet) now = _
    rw [hstore]
    exact cacheLookup_append_self _ _ _ _ _ hnotmem (by simp [UBI_CACHE_TTL])
  · intro e hfatal
    exact has_recent_ubi_claim_fatal o now c wallet e hmiss hfatal

/-- Oracle whose network layer dies with an unexpected exception. -/
def oracleFatal : Oracle :=
  { blockNumber := none, getLogs := fun _ => none,
    formatTs := fun _ => "", fatal := some "boom" }

/-- C5 witness: a concrete normally-completing call stores and re-serves
its result, and a concrete faulted call stores nothing. -/
theorem C5_store_exactly_on_normal_completion_witness :
    cacheLookup ((has_recent_ubi_claim oracleHead 0 [] "0xAb").2.1)
      (pyLower "0xAb") 0 = some (computeUbi oracleHead "0xAb").1 ∧
    has_recent_ubi_claim oracleFatal 0 [] "0xAb" =
      ({ status := "error", message := "⚠️ UBI verification failed: boom",
         activities := none, summary := none }, [], 0) := by
  constructor
  · exact ((C5_store_exactly_on_normal_completion oracleHead 0 [] "0xAb"
      rfl).1 rfl).2.1
  · exact ((C5_store_exactly_on_normal_completion oracleFatal 0 [] "0xAb"
      rfl).2 "boom" rfl)

/-- The wallet of the end-to-end scenario. -/
def wallet6 : String := "0xFf00A683f7bD77665754A65F2B82fdEFc4371a50"

/-- The single token-transfer log of the scenario: data encodes
`100.5 * 10^18` (= `0x572b7b98736c20000`) at block 1000. -/
def log6 : LogEntry :=
  { blockNumber := 1000
    transactionHash := "0xdeadbeef"
    data := "0x00000000000000000000000000000000000000000000000572b7b98736c20000"
    topics := [SIG_TRANSFER, _topic_for_address UBI_PROXY,
               _topic_for_address wallet6] }

/-- Oracle of the scenario: the token-transfer sub-query returns exactly
`log6`; every other sub-query returns no logs. -/
def oracle6 : Oracle :=
  { blockNumber := some 100000
    getLogs := fun q =>
      if q = transferQuery wallet6 (100000 - 48 * 720) 100000 then some [log6]
      else some []
    formatTs := fun n => "ts" ++ toString n
    fatal := none }

/-- The activity record the code actually produces in the scenario. -/
def rec6 : ActivityRecord :=
  { contract := "UBI Proxy"
    contract_address := UBI_PROXY
    block := 1000
    tx_hash := "0xdeadbeef"
    timestamp := "ts1000"
    method := "UBI claim"
    status := "success"
    amount := "100.500000 G$"
    activity_type := "ubi_claim" }

/-- C6 counterexample: in the end-to-end scenario the single produced
activity record has `activity_type = "ubi_claim"`, not `"transfer"` as the
claim states (the transfer path of `has_recent_ubi_claim` labels its
records `"ubi_claim"`, src/blockchain.py:516). -/
theorem C6_counterexample_activity_type :
    (has_recent_ubi_claim oracle6 0 [] wallet6).1.activities = some [rec6] ∧
    rec6.activity_type = "ubi_claim" ∧
    rec6.activity_type ≠ "transfer" := by
  refine ⟨by decide, rfl, by decide⟩

/-- C6 amended: for wallet `0xFf00A683f7bD77665754A65F2B82fdEFc4371a50`,
one transfer log whose data encodes `100.5 * 10^18` at block 1000 (all
other sub-queries empty) yields status `success` with exactly one
ActivityRecord whose amount is `"100.500000 G$"` and whose activity type
is `"ubi_claim"` (method label `"UBI claim"`), and
`summary.total_activities = 1`. -/
theorem C6_amended_end_to_end :
    (has_recent_ubi_claim oracle6 0 [] wallet6).1.status = "success" ∧
    (has_recent_ubi_claim oracle6 0 [] wallet6).1.activities = some [rec6] ∧
    rec6.amount = "100.500000 G$" ∧
    rec6.activity_type = "ubi_claim" ∧
    rec6.method = "UBI claim" ∧
    (has_recent_ubi_claim oracle6 0 [] wallet6).1.summary.map
      (fun s => s.total_activities) = some 1 := by
  refine ⟨by decide, by decide, rfl, rfl, rfl, by decide⟩

theorem digitChar_is_digit (d : Nat) :
    48 ≤ (digitChar d).toNat ∧ (digitChar d).toNat ≤ 57 := by
  unfold digitChar
  have hlt : d % 10 < 10 := Nat.mod_lt _ (by norm_num)
  set k := d % 10 with hk
  interval_cases k <;> decide

theorem pad6_length (n : Nat) : (pad6 n).length = 6 := rfl

theorem pad6_digits (n : Nat) :
    ∀ ch ∈ (pad6 n).data, 48 ≤ ch.toNat ∧ ch.toNat ≤ 57 := by
  intro ch hch
  simp only [pad6, List.mem_cons, List.not_mem_nil, or_false] at hch
  rcases hch with rfl | rfl | rfl | rfl | rfl | rfl <;>
    exact digitChar_is_digit _

theorem formatAmount_shape (w : Int) :
    ∃ ip fr : String, formatAmount w = ip ++ "." ++ fr ++ " G$" ∧
      fr.length = 6 ∧ ∀ ch ∈ fr.data, 48 ≤ ch.toNat ∧ ch.toNat ≤ 57 := by
  by_cases h : w < 0
  · refine ⟨"-" ++ toString (microUnits w.natAbs / 1000000),
      pad6 (microUnits w.natAbs % 1000000), ?_, pad6_length _, pad6_digits _⟩
    unfold formatAmount formatMicro
    rw [if_pos h]
    show String.mk _ = String.mk _
    apply congrArg String.mk
    simp [List.append_assoc]
  · refine ⟨toString (microUnits w.natAbs / 1000000),
      pad6 (microUnits w.natAbs % 1000000), ?_, pad6_length _, pad6_digits _⟩
    unfold formatAmount formatMicro
    rw [if_neg h]

/-- C7 amended: the named-event amount is a guarded two-stage attempt.
Stage one parses the data field as a hex integer scaled by `10^18`; stage
two (parsing `topics[2]`) is attempted only when the data field is
non-empty, differs from `"0x"`, and still fails to parse — when the data
field is empty or exactly `"0x"` the amount is the placeholder
`"Event logged"` without consulting the topics.  If both stages are
unavailable or fail, the amount is the placeholder.  A data field encoding
`10^18` renders as `"1.000000 G$"`, and every rendered amount carries six
decimal digits and the `" G$"` suffix. -/
theorem C7_amended_amount_decoding (data t : String) (topics : List String)
    (w : Int) :
    (data ≠ "" → data ≠ "0x" → parseHexInt data = some w →
      eventAmountStr data topics = formatAmount w) ∧
    (data ≠ "" → data ≠ "0x" → parseHexInt data = none →
      topics.get? 2 = some t → parseHexInt t = some w →
      eventAmountStr data topics = formatAmount w) ∧
    (data = "" ∨ data = "0x" →
      eventAmountStr data topics = "Event logged") ∧
    (parseHexInt data = none →
      (topics.get? 2 = none ∨
        (∀ s, topics.get? 2 = some s → parseHexInt s = none)) →
      eventAmountStr data topics = "Event logged") ∧
    eventAmountStr "0xde0b6b3a7640000" topics = "1.000000 G$" ∧
    (∃ ip fr : String, formatAmount w = ip ++ "." ++ fr ++ " G$" ∧
      fr.length = 6 ∧ ∀ ch ∈ fr.data, 48 ≤ ch.toNat ∧ ch.toNat ≤ 57) := by
  refine ⟨?_, ?_, ?_, ?_, ?_, formatAmount_shape w⟩
  · intro h1 h2 h3
    unfold eventAmountStr
    rw [if_pos ⟨h1, h2⟩, h3]
  · intro h1 h2 h3 h4 h5
    unfold eventAmountStr
    rw [if_pos ⟨h1, h2⟩]
    simp only [h3, h4, h5]
  · intro h
    unfold eventAmountStr
    rw [if_neg]
    rcases h with h | h <;> simp [h]
  · intro hparse htop
    unfold eventAmountStr
    by_cases hcond : data ≠ "" ∧ data ≠ "0x"
    · rw [if_pos hcond, hparse]
      rcases htop with htop | htop
      · rw [htop]
      · cases hsc : topics.get? 2 with
        | none => rfl
        | some s => simp only [htop s hsc]
    · rw [if_neg hcond]
  · have hp : parseHexInt "0xde0b6b3a7640000"
        = some 1000000000000000000 := by decide
    unfold eventAmountStr
    rw [if_pos (by decide), hp]
    show formatAmount 1000000000000000000 = "1.000000 G$"
    decide

/-- The named-event log of the C7 counterexample: an empty (`"0x"`) data
field together with a parseable amount in `topics[2]`. -/
def log7 : LogEntry :=
  { blockNumber := 500
    transactionHash := "0xcafe"
    data := "0x"
    topics := [SIG_UBI_CLAIMED, _topic_for_address "0xAb",
               "0x0de0b6b3a7640000"] }

/-- Oracle of the C7 counterexample: the `UBI_CLAIMED` sub-query returns
exactly `log7`; every other sub-query returns no logs. -/
def oracle7 : Oracle :=
  { blockNumber := some 100000
    getLogs := fun q =>
      if q = eventQuery "0xAb" (100000 - 48 * 720) 100000 "UBI_CLAIMED"
          SIG_UBI_CLAIMED then some [log7]
      else some []
    formatTs := fun n => "ts" ++ toString n
    fatal := none }

/-- The activity record the verifier produces for `log7`. -/
def rec7 : ActivityRecord :=
  { contract := "UBI Proxy"
    contract_address := UBI_PROXY
    block := 500
    tx_hash := "0xcafe"
    timestamp := "ts500"
    method := "ubi claimed"
    status := "success"
    amount := "Event logged"
    activity_type := "ubi_event" }

/-- C7 counterexample: a named-event log with data field `"0x"` and a
parseable `topics[2]` (encoding `10^18`, which would render as
`"1.000000 G$"`) gets the placeholder amount `"Event logged"` — the code
skips the topics fallback entirely when the data field is `"0x"` or empty,
because no exception reaches the `except` arm (src/blockchain.py:585-600),
contradicting the claimed unconditional two-stage attempt. -/
theorem C7_counterexample_data_0x :
    (has_recent_ubi_claim oracle7 0 [] "0xAb").1.activities = some [rec7] ∧
    rec7.amount = "Event logged" ∧
    parseHexInt "0x" = none ∧
    log7.topics.get? 2 = some "0x0de0b6b3a7640000" ∧
    parseHexInt "0x0de0b6b3a7640000" = some 1000000000000000000 ∧
    formatAmount 1000000000000000000 = "1.000000 G$" := by
  refine ⟨by decide, rfl, by decide, by decide, by decide, by decide⟩

/-- C7 witness: both decode stages and the placeholder on concrete
inputs. -/
theorem C7_amended_amount_decoding_witness :
    eventAmountStr "0xde0b6b3a7640000" [] = "1.000000 G$" ∧
    eventAmountStr "0xzz" ["a", "b", "0x0de0b6b3a7640000"]
      = "1.000000 G$" ∧
    eventAmountStr "0x" ["a", "b", "0x0de0b6b3a7640000"]
      = "Event logged" := by
  refine ⟨?_, ?_, ?_⟩
  · exact (C7_amended_amount_decoding "x" "x" [] 0).2.2.2.2.1
  · exact ((C7_amended_amount_decoding "0xzz" "0x0de0b6b3a7640000"
      ["a", "b", "0x0de0b6b3a7640000"] 1000000000000000000).2.1
      (by decide) (by decide) (by decide) (by decide) (by decide)).trans
      (by decide)
  · exact (C7_amended_amount_decoding "0x" "x"
      ["a", "b", "0x0de0b6b3a7640000"] 0).2.2.1 (Or.inr rfl)

theorem headI_mem_of_ne_nil (l : List ActivityRecord) (h : l ≠ []) :
    l.headI ∈ l := by
  cases l with
  | nil => exact absurd rfl h
  | cons a t => exact List.mem_cons_self a t

theorem sorted_headI_max (l : List ActivityRecord)
    (hs : List.Sorted blockDesc l) : ∀ a ∈ l, a.block ≤ l.headI.block := by
  cases l with
  | nil => intro a ha; exact absurd ha (List.not_mem_nil a)
  | cons b t =>
    intro a ha
    rcases List.mem_cons.mp ha with rfl | ha
    · exact le_refl _
    · exact (List.sorted_cons.mp hs).1 a ha

theorem sortActivities_sorted (l : List ActivityRecord) :
    List.Sorted blockDesc (sortActivities l) :=
  List.sorted_insertionSort blockDesc l

theorem sortActivities_perm (l : List ActivityRecord) :
    (sortActivities l).Perm l :=
  List.perm_insertionSort blockDesc l

theorem sortActivities_ne_nil (a : ActivityRecord) (t : List ActivityRecord) :
    sortActivities (a :: t) ≠ [] := by
  apply List.ne_nil_of_length_pos
  rw [(sortActivities_perm (a :: t)).length_eq]
  simp

/-- Claimed success-result invariant: non-empty activities sorted by block
number descending, with `summary.latest_activity` the head element, which
carries the maximum block number. -/
def GoodSorted (r : VerificationResult) : Prop :=
  r.status = "success" →
    ∃ acts s, r.activities = some acts ∧ r.summary = some s ∧
      acts ≠ [] ∧ List.Sorted blockDesc acts ∧
      s.latest_activity = acts.headI ∧ acts.headI ∈ acts ∧
      ∀ a ∈ acts, a.block ≤ acts.headI.block

theorem buildVerdict_goodSorted (acts : List ActivityRecord) :
    GoodSorted (buildVerdict acts) := by
  cases acts with
  | nil => intro h; exact absurd h (by decide)
  | cons a t =>
    intro _
    refine ⟨sortActivities (a :: t), _, rfl, rfl,
      sortActivities_ne_nil a t, sortActivities_sorted (a :: t), rfl,
      headI_mem_of_ne_nil _ (sortActivities_ne_nil a t),
      sorted_headI_max _ (sortActivities_sorted (a :: t))⟩

theorem computeUbi_goodSorted (o : Oracle) (w : String) :
    GoodSorted (computeUbi o w).1 := by
  simp only [computeUbi]
  cases h : (aggregate o w).1 with
  | nil => exact buildVerdict_goodSorted []
  | cons a t => exact buildVerdict_goodSorted (a :: t)

theorem cacheStore_mem (c : Cache) (key : String) (r : VerificationResult)
    (now : Nat) :
    ∀ e ∈ cacheStore c key r now, e ∈ c ∨ e = (key, r, now) := by
  intro e he
  unfold cacheStore at he
  split at he
  · rcases List.mem_map.mp he with ⟨e0, he0, hmap⟩
    by_cases hk : e0.1 = key
    · right
      rw [← hmap, if_pos hk]
    · left
      rwa [← hmap, if_neg hk]
  · rcases List.mem_append.mp he with h | h
    · exact Or.inl h
    · right
      simpa using h

theorem call_preserves (P : VerificationResult → Prop)
    (hP : ∀ o w, P (computeUbi o w).1)
    (hPf : ∀ e : String,
      P { status := "error",
          message := "⚠️ UBI verification failed: " ++ e,
          activities := none, summary := none })
    (o : Oracle) (now : Nat) (c : Cache) (wallet : String)
    (hc : ∀ e ∈ c, P e.2.1) :
    P (has_recent_ubi_claim o now c wallet).1 ∧
    ∀ e ∈ (has_recent_ubi_claim o now c wallet).2.1, P e.2.1 := by
  have hclean : ∀ e ∈ _cleanup_expired_cache now c, P e.2.1 :=
    fun e he => hc e (cleanup_mem_fresh now c e he).1
  simp only [has_recent_ubi_claim]
  cases hl : cacheLookup (_cleanup_expired_cache now c) (pyLower wallet) now
    with
  | some r =>
    refine ⟨?_, hclean⟩
    unfold cacheLookup at hl
    cases hf : (_cleanup_expired_cache now c).find?
        (fun x => x.1 = pyLower wallet) with
    | none => rw [hf] at hl; exact Option.noConfusion hl
    | some e2 =>
      rw [hf] at hl
      have h2 : (if now - e2.2.2 < UBI_CACHE_TTL then some e2.2.1 else none)
          = some r := hl
      have hm := List.mem_of_find?_eq_some hf
      by_cases hfr : now - e2.2.2 < UBI_CACHE_TTL
      · rw [if_pos hfr] at h2
        cases h2
        exact hclean e2 hm
      · rw [if_neg hfr] at h2
        exact Option.noConfusion h2
  | none =>
    cases hfat : o.fatal with
    | some e => exact ⟨hPf e, hclean⟩
    | none =>
      refine ⟨hP o wallet, ?_⟩
      intro e he
      rcases cacheStore_mem _ _ _ _ e he with h | h
      · exact hclean e h
      · rw [h]
        exact hP o wallet

/-- C1: on every call whose result has status `success` (starting from a
cache whose entries all satisfy the invariant), the activities list is
non-empty, sorted by block number descending, and `summary.latest_activity`
is the head element `activities[0]`, an activity of maximum block number;
the invariant also holds of every entry of the cache the call leaves
behind. -/
theorem C1_success_sorted_latest (o : Oracle) (now : Nat) (c : Cache)
    (wallet : String) (hc : ∀ e ∈ c, GoodSorted e.2.1) :
    GoodSorted (has_recent_ubi_claim o now c wallet).1 ∧
    ∀ e ∈ (has_recent_ubi_claim o now c wallet).2.1, GoodSorted e.2.1 :=
  call_preserves GoodSorted computeUbi_goodSorted
    (fun _ h => absurd (show ("error" : String) = "success" from h)
      (by decide)) o now c wallet hc

/-- C1 witness: the invariant at the concrete successful scenario call. -/
theorem C1_success_sorted_latest_witness :
    (has_recent_ubi_claim oracle6 0 [] wallet6).1.status = "success" ∧
    GoodSorted (has_recent_ubi_claim oracle6 0 [] wallet6).1 :=
  ⟨by decide,
   (C1_success_sorted_latest oracle6 0 [] wallet6
     (fun e he => absurd he (List.not_mem_nil e))).1⟩

theorem transferStep_types (o : Oracle) (wallet : String) (fb tb : Int) :
    ∀ a ∈ (transferStep o wallet fb tb).1, a.activity_type = "ubi_claim" := by
  intro a ha
  unfold transferStep at ha
  cases h : o.getLogs (transferQuery wallet fb tb) with
  | none => rw [h] at ha; exact absurd ha (List.not_mem_nil a)
  | some logs =>
    rw [h] at ha
    rcases List.mem_map.mp ha with ⟨lg, _, rfl⟩
    rfl

theorem eventStep_types (o : Oracle) (wallet : String) (fb tb : Int)
    (name sig : String) :
    ∀ a ∈ (eventStep o wallet fb tb name sig).1,
      a.activity_type = "ubi_event" := by
  intro a ha
  unfold eventStep at ha
  cases h : o.getLogs (eventQuery wallet fb tb name sig) with
  | none => rw [h] at ha; exact absurd ha (List.not_mem_nil a)
  | some logs =>
    rw [h] at ha
    simp only at ha
    split at ha <;>
      · rcases List.mem_map.mp ha with ⟨lg, _, rfl⟩
        rfl

theorem aggregate_types (o : Oracle) (w : String) :
    ∀ a ∈ (aggregate o w).1,
      a.activity_type = "ubi_claim" ∨ a.activity_type = "ubi_event" := by
  intro a ha
  unfold aggregate eventsStep at ha
  simp only [List.mem_append, or_assoc] at ha
  rcases ha with ha | ha | ha | ha
  · exact Or.inl (transferStep_types o w _ _ a ha)
  · exact Or.inr (eventStep_types o w _ _ _ _ a ha)
  · exact Or.inr (eventStep_types o w _ _ _ _ a ha)
  · exact Or.inr (eventStep_types o w _ _ _ _ a ha)

theorem filter_claim_event_length (l : List ActivityRecord)
    (h : ∀ a ∈ l,
      a.activity_type = "ubi_claim" ∨ a.activity_type = "ubi_event") :
    (l.filter (fun a => a.activity_type = "ubi_claim")).length +
    (l.filter (fun a => a.activity_type = "ubi_event")).length
      = l.length := by
  induction l with
  | nil => rfl
  | cons a t ih =>
    have iht := ih (fun b hb => h b (List.mem_cons_of_mem a hb))
    rcases h a (List.mem_cons_self a t) with ha | ha <;>
      · simp [List.filter_cons, ha]
        omega

/-- Claimed success-summary invariant: claims + events = total = number of
activities, every activity type is `ubi_claim` or `ubi_event`, and
`contracts_involved` is the constant 1. -/
def GoodCounts (r : VerificationResult) : Prop :=
  r.status = "success" →
    ∃ acts s, r.activities = some acts ∧ r.summary = some s ∧
      s.claims + s.events = s.total_activities ∧
      s.total_activities = acts.length ∧
      (∀ a ∈ acts,
        a.activity_type = "ubi_claim" ∨ a.activity_type = "ubi_event") ∧
      s.contracts_involved = 1

theorem buildVerdict_goodCounts (acts : List ActivityRecord)
    (h : ∀ a ∈ acts,
      a.activity_type = "ubi_claim" ∨ a.activity_type = "ubi_event") :
    GoodCounts (buildVerdict acts) := by
  cases acts with
  | nil => intro hs; exact absurd hs (by decide)
  | cons a t =>
    intro _
    have htypes : ∀ b ∈ sortActivities (a :: t),
        b.activity_type = "ubi_claim" ∨ b.activity_type = "ubi_event" :=
      fun b hb => h b ((sortActivities_perm (a :: t)).mem_iff.mp hb)
    exact ⟨sortActivities (a :: t), _, rfl, rfl,
      filter_claim_event_length _ htypes, rfl, htypes, rfl⟩

theorem computeUbi_goodCounts (o : Oracle) (w : String) :
    GoodCounts (computeUbi o w).1 := by
  simp only [computeUbi]
  cases h : (aggregate o w).1 with
  | nil => exact buildVerdict_goodCounts [] (by simp)
  | cons a t =>
    refine buildVerdict_goodCounts (a :: t) ?_
    rw [← h]
    exact aggregate_types o w

/-- C10: on every call whose result has status `success` (starting from a
cache whose entries all satisfy the invariant), the summary satisfies
`claims + events = total_activities = activities.length`, every activity
type is `ubi_claim` or `ubi_event` (never `transfer` or `event`), and
`contracts_involved = 1`; the invariant also holds of every entry of the
cache the call leaves behind. -/
theorem C10_success_summary_counts (o : Oracle) (now : Nat) (c : Cache)
    (wallet : String) (hc : ∀ e ∈ c, GoodCounts e.2.1) :
    GoodCounts (has_recent_ubi_claim o now c wallet).1 ∧
    ∀ e ∈ (has_recent_ubi_claim o now c wallet).2.1, GoodCounts e.2.1 :=
  call_preserves GoodCounts computeUbi_goodCounts
    (fun _ h => absurd (show ("error" : String) = "success" from h)
      (by decide)) o now c wallet hc

/-- C10 witness: the invariant at the concrete successful scenario call. -/
theorem C10_success_summary_counts_witness :
    (has_recent_ubi_claim oracle6 0 [] wallet6).1.status = "success" ∧
    GoodCounts (has_recent_ubi_claim oracle6 0 [] wallet6).1 :=
  ⟨by decide,
   (C10_success_summary_counts oracle6 0 [] wallet6
     (fun e he => absurd he (List.not_mem_nil e))).1⟩

theorem cacheLookup_none_of_not_mem (cc : Cache) (key : String) (now : Nat)
    (h : ∀ e ∈ cc, e.1 ≠ key) : cacheLookup cc key now = none := by
  have hf : cc.find? (fun e => e.1 = key) = none :=
    List.find?_eq_none.mpr (fun e he => by simpa using h e he)
  unfold cacheLookup
  rw [hf]

theorem cleanup_length_le (now : Nat) (c : Cache) :
    (_cleanup_expired_cache now c).length ≤ c.length := by
  simp only [_cleanup_expired_cache]
  split
  · exact le_trans (List.length_filter_le _ _) (List.length_filter_le _ _)
  · exact List.length_filter_le _ _

theorem cleanup_append_one (now : Nat) (cc : Cache)
    (entry : String × VerificationResult × Nat)
    (hlen2 : (cc.filter (fun e => now - e.2.2 < UBI_CACHE_TTL)).length + 1
      ≤ UBI_CACHE_MAX_SIZE) :
    _cleanup_expired_cache now (cc ++ [entry]) =
      cc.filter (fun e => now - e.2.2 < UBI_CACHE_TTL) ++
        List.filter (fun e => now - e.2.2 < UBI_CACHE_TTL) [entry] := by
  simp only [_cleanup_expired_cache]
  rw [List.filter_append, if_neg]
  intro hgt
  have h1 : (List.filter
      (fun e : String × VerificationResult × Nat =>
        now - e.2.2 < UBI_CACHE_TTL) [entry]).length ≤ 1 :=
    List.length_filter_le _ [entry]
  rw [List.length_append] at hgt
  omega

theorem aggregate_calls_pos (o : Oracle) (w : String) :
    0 < (aggregate o w).2 := by
  simp only [aggregate]
  omega

theorem computeUbi_calls_pos (o : Oracle) (w : String) :
    0 < (computeUbi o w).2 := by
  have h := aggregate_calls_pos o w
  simp only [computeUbi]
  cases hc : (aggregate o w).1 with
  | nil =>
    show 0 < (aggregate o w).2 + 1
    omega
  | cons a t =>
    show 0 < (aggregate o w).2
    omega

/-- C3: for one wallet (keyed case-insensitively via lower-casing), after a
normally-completing verification call at time `t0` that missed and stored,
a second call strictly less than 300 seconds later returns the identical
cached result and issues zero network queries, while a second call 300 or
more seconds after the store misses the cache and re-runs the full
aggregation (a positive number of network queries).  The cache is assumed
to hold fewer than its 1000-entry bound so the size sweep is not in
play. -/
theorem C3_cache_idempotence_and_expiry (o1 o2 : Oracle) (t0 t1 : Nat)
    (c : Cache) (w1 w2 : String)
    (hlen : c.length < UBI_CACHE_MAX_SIZE)
    (hmiss : cacheLookup (_cleanup_expired_cache t0 c) (pyLower w1) t0
      = none)
    (hfatal : o1.fatal = none)
    (hkey : pyLower w2 = pyLower w1)
    (hle : t0 ≤ t1) :
    (t1 < t0 + UBI_CACHE_TTL →
      (has_recent_ubi_claim o2 t1
        (has_recent_ubi_claim o1 t0 c w1).2.1 w2).1 =
        (has_recent_ubi_claim o1 t0 c w1).1 ∧
      (has_recent_ubi_claim o2 t1
        (has_recent_ubi_claim o1 t0 c w1).2.1 w2).2.2 = 0) ∧
    (t0 + UBI_CACHE_TTL ≤ t1 → o2.fatal = none →
      (has_recent_ubi_claim o2 t1
        (has_recent_ubi_claim o1 t0 c w1).2.1 w2).1 =
        (computeUbi o2 w2).1 ∧
      (has_recent_ubi_claim o2 t1
        (has_recent_ubi_claim o1 t0 c w1).2.1 w2).2.2 =
        (computeUbi o2 w2).2 ∧
      0 < (has_recent_ubi_claim o2 t1
        (has_recent_ubi_claim o1 t0 c w1).2.1 w2).2.2) := by
  have httl : UBI_CACHE_TTL = 300 := rfl
  have hrun1 := has_recent_ubi_claim_miss o1 t0 c w1 hmiss hfatal
  have hnm := cacheLookup_cleanup_none_not_mem t0 c (pyLower w1) hmiss
  have hstore := cacheStore_append (_cleanup_expired_cache t0 c)
    (pyLower w1) (computeUbi o1 w1).1 t0 hnm
  have hc1 : (has_recent_ubi_claim o1 t0 c w1).2.1 =
      _cleanup_expired_cache t0 c
        ++ [(pyLower w1, (computeUbi o1 w1).1, t0)] := by
    rw [hrun1]
    exact hstore
  have hr1 : (has_recent_ubi_claim o1 t0 c w1).1 = (computeUbi o1 w1).1 := by
    rw [hrun1]
  have hlenclean : (_cleanup_expired_cache t0 c).length ≤ c.length :=
    cleanup_length_le t0 c
  have hlenfilter : ((_cleanup_expired_cache t0 c).filter
      (fun e => t1 - e.2.2 < UBI_CACHE_TTL)).length + 1
        ≤ UBI_CACHE_MAX_SIZE := by
    have := List.length_filter_le
      (fun e : String × VerificationResult × Nat =>
        decide (t1 - e.2.2 < UBI_CACHE_TTL)) (_cleanup_expired_cache t0 c)
    omega
  have hsubne : ∀ e ∈ (_cleanup_expired_cache t0 c).filter
      (fun e => t1 - e.2.2 < UBI_CACHE_TTL), e.1 ≠ pyLower w1 :=
    fun e he => hnm e (List.mem_filter.mp he).1
  constructor
  · intro hlt
    have hfr : t1 - t0 < UBI_CACHE_TTL := by omega
    have hfone : List.filter
        (fun e : String × VerificationResult × Nat =>
          t1 - e.2.2 < UBI_CACHE_TTL)
        [(pyLower w1, (computeUbi o1 w1).1, t0)] =
        [(pyLower w1, (computeUbi o1 w1).1, t0)] := by
      simp [hfr]
    have hclean2 : _cleanup_expired_cache t1
        (has_recent_ubi_claim o1 t0 c w1).2.1 =
        (_cleanup_expired_cache t0 c).filter
          (fun e => t1 - e.2.2 < UBI_CACHE_TTL)
          ++ [(pyLower w1, (computeUbi o1 w1).1, t0)] := by
      rw [hc1, cleanup_append_one t1 _ _ hlenfilter, hfone]
    have hlook : cacheLookup (_cleanup_expired_cache t1
        (has_recent_ubi_claim o1 t0 c w1).2.1) (pyLower w2) t1 =
        some (computeUbi o1 w1).1 := by
      rw [hkey, hclean2]
      exact cacheLookup_append_self _ _ _ _ _ hsubne hfr
    have hrun2 := has_recent_ubi_claim_hit o2 t1
      (has_recent_ubi_claim o1 t0 c w1).2.1 w2 (computeUbi o1 w1).1 hlook
    rw [hrun2, hr1]
    exact ⟨rfl, rfl⟩
  · intro hge hfatal2
    have hnfr : ¬(t1 - t0 < UBI_CACHE_TTL) := by omega
    have hfzero : List.filter
        (fun e : String × VerificationResult × Nat =>
          t1 - e.2.2 < UBI_CACHE_TTL)
        [(pyLower w1, (computeUbi o1 w1).1, t0)] = [] := by
      simp [hnfr]
    have hclean2 : _cleanup_expired_cache t1
        (has_recent_ubi_claim o1 t0 c w1).2.1 =
        (_cleanup_expired_cache t0 c).filter
          (fun e => t1 - e.2.2 < UBI_CACHE_TTL) := by
      rw [hc1, cleanup_append_one t1 _ _ hlenfilter, hfzero,
        List.append_nil]
    have hlook : cacheLookup (_cleanup_expired_cache t1
        (has_recent_ubi_claim o1 t0 c w1).2.1) (pyLower w2) t1 = none := by
      rw [hkey, hclean2]
      exact cacheLookup_none_of_not_mem _ _ _ hsubne
    have hrun2 := has_recent_ubi_claim_miss o2 t1
      (has_recent_ubi_claim o1 t0 c w1).2.1 w2 hlook hfatal2
    rw [hrun2]
    exact ⟨rfl, rfl, computeUbi_calls_pos o2 w2⟩

/-- C3 witness: a concrete store at time 0, a hit with a differently-cased
wallet at time 299 returning the identical result with zero queries, and a
recomputation at time 300. -/
theorem C3_cache_idempotence_and_expiry_witness :
    (has_recent_ubi_claim oracleHead 299
      (has_recent_ubi_claim oracleHead 0 [] "0xAb").2.1 "0xAB").1 =
      (has_recent_ubi_claim oracleHead 0 [] "0xAb").1 ∧
    (has_recent_ubi_claim oracleHead 299
      (has_recent_ubi_claim oracleHead 0 [] "0xAb").2.1 "0xAB").2.2 = 0 ∧
    (has_recent_ubi_claim oracleHead 300
      (has_recent_ubi_claim oracleHead 0 [] "0xAb").2.1 "0xAB").1 =
      (computeUbi oracleHead "0xAB").1 ∧
    0 < (has_recent_ubi_claim oracleHead 300
      (has_recent_ubi_claim oracleHead 0 [] "0xAb").2.1 "0xAB").2.2 := by
  have hA := (C3_cache_idempotence_and_expiry oracleHead oracleHead 0 299
    [] "0xAb" "0xAB" (by decide) rfl rfl (by decide) (by decide)).1
    (by decide)
  have hB := (C3_cache_idempotence_and_expiry oracleHead oracleHead 0 300
    [] "0xAb" "0xAB" (by decide) rfl rfl (by decide) (by decide)).2
    (by decide) rfl
  exact ⟨hA.1, hA.2, hB.1, hB.2.2⟩

/-- The i-th distinct wallet of the cache-bound experiment (already
lower-case, so it is its own cache key). -/
def walletI (i : Nat) : String := ⟨'w' :: List.replicate i 'a'⟩

/-- The cache entry the experiment stores for the i-th wallet: every call
against the dead oracle computes the no-activity error result, and all
calls happen at clock time 0. -/
def entryI (i : Nat) : String × VerificationResult × Nat :=
  (walletI i, noActivityResult, 0)

/-- The cache after `n` verification calls against `oracleDown` at clock
time 0, the i-th call using wallet `walletI i`. -/
def runCalls : Nat → Cache
  | 0 => []
  | n + 1 => (has_recent_ubi_claim oracleDown 0 (runCalls n) (walletI n)).2.1

theorem pyLower_walletI (i : Nat) : pyLower (walletI i) = walletI i := by
  unfold pyLower walletI
  apply congrArg String.mk
  rw [List.map_cons, List.map_replicate]
  rw [show pyToLower 'w' = 'w' from by decide,
    show pyToLower 'a' = 'a' from by decide]

theorem walletI_inj {i j : Nat} (h : walletI i = walletI j) : i = j := by
  unfold walletI at h
  have hd := congrArg String.data h
  simp only at hd
  have hlen := congrArg List.length hd
  simpa using hlen

theorem computeUbi_down (w : String) :
    computeUbi oracleDown w = (noActivityResult, 7) := rfl

theorem cleanup_time_zero (cc : Cache)
    (hlen : cc.length ≤ UBI_CACHE_MAX_SIZE) :
    _cleanup_expired_cache 0 cc = cc := by
  have hf : cc.filter (fun e => 0 - e.2.2 < UBI_CACHE_TTL) = cc :=
    List.filter_eq_self.mpr (fun e _ => by simp [UBI_CACHE_TTL])
  simp only [_cleanup_expired_cache]
  rw [hf, if_neg (by omega)]

theorem entryI_key_ne (m : Nat) :
    ∀ e ∈ (List.range m).map entryI, e.1 ≠ walletI m := by
  intro e he hk
  rcases List.mem_map.mp he with ⟨i, hi, rfl⟩
  have hi2 : i < m := List.mem_range.mp hi
  exact absurd (walletI_inj hk) (by omega)

theorem runCalls_eq (n : Nat) (hn : n ≤ 1001) :
    runCalls n = (List.range n).map entryI := by
  induction n with
  | zero => rfl
  | succ m ih =>
    have hLm := ih (by omega)
    have hlenm : ((List.range m).map entryI).length ≤ UBI_CACHE_MAX_SIZE := by
      simp only [List.length_map, List.length_range]
      show m ≤ 1000
      omega
    have hclean : _cleanup_expired_cache 0 ((List.range m).map entryI) =
        (List.range m).map entryI := cleanup_time_zero _ hlenm
    have hmiss : cacheLookup
        (_cleanup_expired_cache 0 ((List.range m).map entryI))
        (pyLower (walletI m)) 0 = none := by
      rw [hclean, pyLower_walletI]
      exact cacheLookup_none_of_not_mem _ _ _ (entryI_key_ne m)
    simp only [runCalls]
    rw [hLm, has_recent_ubi_claim_miss oracleDown 0 _ (walletI m) hmiss rfl]
    show cacheStore (_cleanup_expired_cache 0 ((List.range m).map entryI))
        (pyLower (walletI m)) (computeUbi oracleDown (walletI m)).1 0 = _
    rw [hclean, pyLower_walletI, cacheStore_append _ _ _ _ (entryI_key_ne m),
      computeUbi_down, List.range_succ, List.map_append]
    rfl

theorem insertionSort_of_all_pairs {α : Type} (r : α → α → Prop)
    [DecidableRel r] (l : List α) (h : ∀ a ∈ l, ∀ b ∈ l, r a b) :
    List.insertionSort r l = l := by
  induction l with
  | nil => rfl
  | cons x xs ih =>
    have hxs : List.insertionSort r xs = xs :=
      ih (fun a ha b hb =>
        h a (List.mem_cons_of_mem _ ha) b (List.mem_cons_of_mem _ hb))
    show List.orderedInsert r x (List.insertionSort r xs) = x :: xs
    rw [hxs]
    cases xs with
    | nil => rfl
    | cons y ys =>
      rw [List.orderedInsert,
        if_pos (h x (List.mem_cons_self _ _) y
          (List.mem_cons_of_mem _ (List.mem_cons_self _ _)))]

theorem runCalls_1001_cons :
    (List.range 1001).map entryI =
      entryI 0 :: (List.range 1000).map (fun i => entryI (i + 1)) := by
  rw [List.range_succ_eq_map, List.map_cons, List.map_map]
  rfl

theorem cleanup_evicts_first :
    _cleanup_expired_cache 0 (runCalls 1001) = (runCalls 1001).drop 1 := by
  rw [runCalls_eq 1001 (le_refl _)]
  have hfresh : ((List.range 1001).map entryI).filter
      (fun e => 0 - e.2.2 < UBI_CACHE_TTL) = (List.range 1001).map entryI :=
    List.filter_eq_self.mpr (fun e _ => by simp [UBI_CACHE_TTL])
  have hlen : ((List.range 1001).map entryI).length = 1001 := by simp
  have hts : ∀ a ∈ (List.range 1001).map entryI,
      ∀ b ∈ (List.range 1001).map entryI, tsAsc a b := by
    intro a ha b _
    rcases List.mem_map.mp ha with ⟨i, _, rfl⟩
    exact Nat.zero_le _
  have hsort : List.insertionSort tsAsc ((List.range 1001).map entryI) =
      (List.range 1001).map entryI :=
    insertionSort_of_all_pairs tsAsc _ hts
  simp only [_cleanup_expired_cache]
  rw [hfresh, if_pos (by rw [hlen]; decide), hsort, hlen]
  show ((List.range 1001).map entryI).filter
      (fun e => e.1 ∉ (((List.range 1001).map entryI).take
        (1001 - UBI_CACHE_MAX_SIZE)).map (fun e => e.1)) = _
  rw [runCalls_1001_cons]
  show (entryI 0 :: (List.range 1000).map (fun i => entryI (i + 1))).filter
      (fun e => e.1 ∉ [walletI 0]) = _
  rw [List.filter_cons, if_neg (by simp [entryI])]
  rw [List.filter_eq_self.mpr]
  · rfl
  · intro e he
    rcases List.mem_map.mp he with ⟨i, _, rfl⟩
    have : walletI (i + 1) ≠ walletI 0 := fun hw => by
      exact absurd (walletI_inj hw) (by omega)
    simpa [entryI] using this

theorem runCalls_succ (n : Nat) :
    runCalls (n + 1) =
      (has_recent_ubi_claim oracleDown 0 (runCalls n) (walletI n)).2.1 := rfl

/-- C4 counterexample: 1001 verification calls with 1001 distinct fresh
wallets leave the cache with 1001 entries, not 1000 — the insertion at the
end of the 1001st call is not followed by any eviction; the sweep only
runs at the start of the next call. -/
theorem C4_counterexample_cache_size :
    (runCalls 1001).length = 1001 ∧ (runCalls 1001).length ≠ 1000 := by
  have h : (runCalls 1001).length = 1001 := by
    rw [runCalls_eq 1001 (le_refl _)]
    simp
  exact ⟨h, by omega⟩

/-- C4 amended: after 1001 distinct fresh insertions the cache holds 1001
entries; the 1000-entry bound is enforced lazily by
`_cleanup_expired_cache` at the start of the next verification call, which
evicts exactly the single globally oldest entry (the first inserted
wallet), leaving 1000 entries before that call stores its own result. -/
theorem C4_amended_lazy_eviction :
    (runCalls 1001).length = 1001 ∧
    _cleanup_expired_cache 0 (runCalls 1001) = (runCalls 1001).drop 1 ∧
    (_cleanup_expired_cache 0 (runCalls 1001)).length = 1000 ∧
    (runCalls 1001).head? = some (walletI 0, noActivityResult, 0) ∧
    (runCalls 1002).length = 1001 := by
  have hL : runCalls 1001 = (List.range 1001).map entryI :=
    runCalls_eq 1001 (le_refl _)
  have hlen1001 : (runCalls 1001).length = 1001 := by rw [hL]; simp
  have hdrop := cleanup_evicts_first
  have hdroplen : ((runCalls 1001).drop 1).length = 1000 := by
    rw [hL]
    simp
  have hkeys : ∀ e ∈ (runCalls 1001).drop 1, e.1 ≠ walletI 1001 := by
    intro e he
    refine entryI_key_ne 1001 e ?_
    rw [hL] at he
    exact List.mem_of_mem_drop he
  have hmiss : cacheLookup (_cleanup_expired_cache 0 (runCalls 1001))
      (pyLower (walletI 1001)) 0 = none := by
    rw [hdrop, pyLower_walletI]
    exact cacheLookup_none_of_not_mem _ _ _ hkeys
  have h1002 : (runCalls 1002).length = 1001 := by
    rw [show (1002 : Nat) = 1001 + 1 from rfl, runCalls_succ,
      has_recent_ubi_claim_miss oracleDown 0 _ (walletI 1001) hmiss rfl,
      hdrop, pyLower_walletI, cacheStore_append _ _ _ _ hkeys]
    show ((runCalls 1001).drop 1
      ++ [(walletI 1001, (computeUbi oracleDown (walletI 1001)).1,
        0)]).length = 1001
    rw [List.length_append, hdroplen]
    rfl
  refine ⟨hlen1001, hdrop, ?_, ?_, h1002⟩
  · rw [hdrop, hdroplen]
  · rw [hL, runCalls_1001_cons]
    rfl
